import Mathlib

/-!
Verification of the ETL core of FinTech_Analytics_Pro (src/simple_etl.py)
against its natural-language specification.

The pipeline's tabular data is embedded shallowly:
numeric cells are rationals (the comparisons and arithmetic of the source
are exact at the values the binning rules inspect), a dataframe column of
possibly-missing values is an Option, and the SQLite store is an
association list from table name to list of rows.  Failure (a raised
Python exception) is an error value.
-/

namespace SimpleETL

/-- a cell value in the relational store (SQLite dynamic typing:
INTEGER, REAL, TEXT, NULL). -/
inductive Val where
  | vInt : Int → Val
  | vRat : ℚ → Val
  | vStr : String → Val
  | vNull : Val
deriving DecidableEq

/-- a stored row: column name to value. -/
abbrev Row := List (String × Val)

/-- a stored table: a list of rows. -/
abbrev Table := List Row

/-- the relational store: table name to table, in creation order. -/
abbrev Store := List (String × Table)

/-- first value bound to a column in a row, NULL when the column is absent. -/
def Row.lookupVal : Row → String → Val
  | [], _ => Val.vNull
  | p :: rest, c => if p.1 = c then p.2 else Row.lookupVal rest c

/-- the table currently stored under a name, if any. -/
def Store.getTable : Store → String → Option Table
  | [], _ => none
  | p :: rest, n => if p.1 = n then some p.2 else Store.getTable rest n

/-- replace the table stored under a name (DROP + CREATE + INSERT of
pandas to_sql with if_exists="replace"); creates the table when absent. -/
def Store.setTable (s : Store) (name : String) (t : Table) : Store :=
  if (Store.getTable s name).isSome then
    s.map (fun p => if p.1 = name then (name, t) else p)
  else s ++ [(name, t)]

/-- numeric content of a cell, none for TEXT/NULL (SQL aggregates skip those). -/
def Val.toRat? : Val → Option ℚ
  | Val.vInt n => some (n : ℚ)
  | Val.vRat q => some q
  | _ => none

/-- customer segmentation, simple_etl.py lines 70-77: np.select evaluates the
four conditions in order and takes the first hit, with default "Standard". -/
def customer_segment_of (credit_score : ℚ) : String :=
  if 750 ≤ credit_score then "Premium"
  else if 700 ≤ credit_score ∧ credit_score < 750 then "Gold"
  else if 650 ≤ credit_score ∧ credit_score < 700 then "Silver"
  else if credit_score < 650 then "Standard"
  else "Standard"

/-- loan risk band, simple_etl.py lines 86-90: pd.cut over bins
[0, 10, 12, 14, 16, 100] with labels A..E; pd.cut intervals are
left-open right-closed, values outside (0, 100] become NaN (none). -/
def riskBandOf (interest_rate : ℚ) : Option String :=
  if 0 < interest_rate ∧ interest_rate ≤ 10 then some "A"
  else if 10 < interest_rate ∧ interest_rate ≤ 12 then some "B"
  else if 12 < interest_rate ∧ interest_rate ≤ 14 then some "C"
  else if 14 < interest_rate ∧ interest_rate ≤ 16 then some "D"
  else if 16 < interest_rate ∧ interest_rate ≤ 100 then some "E"
  else none

/-- risk grade, simple_etl.py lines 134-138: pd.cut over bins
[0, 60, 70, 80, 90, 100] with labels E, D, C, B, A. -/
def riskGradeOf (risk_score : ℚ) : Option String :=
  if 0 < risk_score ∧ risk_score ≤ 60 then some "E"
  else if 60 < risk_score ∧ risk_score ≤ 70 then some "D"
  else if 70 < risk_score ∧ risk_score ≤ 80 then some "C"
  else if 80 < risk_score ∧ risk_score ≤ 90 then some "B"
  else if 90 < risk_score ∧ risk_score ≤ 100 then some "A"
  else none

/-- an input customer row (the columns the transform inspects). -/
structure CustomerRow where
  customer_id : String
  credit_score : ℚ
deriving DecidableEq

/-- a transformed customer row: input columns plus the derived segment. -/
structure CustomerRowT extends CustomerRow where
  customer_segment : String
deriving DecidableEq

/-- an input loan row (the columns the transform inspects). -/
structure LoanRow where
  loan_id : String
  customer_id : String
  loan_amount : ℚ
  interest_rate : ℚ
  tenure_months : ℚ
  emi_amount : ℚ
  current_status : String
deriving DecidableEq

/-- a transformed loan row: input columns plus the derived columns of
simple_etl.py lines 86-94. -/
structure LoanRowT extends LoanRow where
  risk_band : Option String
  total_payable : ℚ
  total_interest : ℚ
deriving DecidableEq

/-- per-row customer transform, simple_etl.py lines 66-79. -/
def customerDerive (r : CustomerRow) : CustomerRowT :=
  { toCustomerRow := r, customer_segment := customer_segment_of r.credit_score }

/-- customers branch of transform_data (the branch taken on a non-empty table). -/
def transform_customers (rows : List CustomerRow) : List CustomerRowT :=
  rows.map customerDerive

/-- per-row loan transform, simple_etl.py lines 82-96:
risk_band from pd.cut, total_payable = emi_amount * tenure_months,
total_interest = total_payable - loan_amount. -/
def loanDerive (r : LoanRow) : LoanRowT :=
  let tp := r.emi_amount * r.tenure_months
  { toLoanRow := r, risk_band := riskBandOf r.interest_rate,
    total_payable := tp, total_interest := tp - r.loan_amount }

/-- loans branch of transform_data (the branch taken on a non-empty table). -/
def transform_loans (rows : List LoanRow) : List LoanRowT :=
  rows.map loanDerive

/-- an input transaction row (raw transaction_date text from the CSV). -/
structure TxnRow where
  transaction_id : String
  loan_id : String
  transaction_date : String
deriving DecidableEq

/-- a transformed transaction row: transaction_date parsed to
(year, month, day) and the derived YYYY-MM string; none encodes NaT. -/
structure TxnRowT where
  transaction_id : String
  loan_id : String
  transaction_date : Option (Nat × Nat × Nat)
  transaction_month : Option String
deriving DecidableEq

/-- two-digit zero padding used by strftime month formatting. -/
def pad2 (n : Nat) : String := if n < 10 then "0" ++ toString n else toString n

/-- strftime("%Y-%m") applied to a parsed date. -/
def monthOf (d : Nat × Nat × Nat) : String := toString d.1 ++ "-" ++ pad2 d.2.1

/-- per-row derived transaction columns (the map applied when every
date in the column parses). -/
def txnDerive (parseDate : String → Option (Nat × Nat × Nat)) (r : TxnRow) : TxnRowT :=
  { transaction_id := r.transaction_id, loan_id := r.loan_id,
    transaction_date := parseDate r.transaction_date,
    transaction_month := (parseDate r.transaction_date).map monthOf }

/-- transactions branch of transform_data, simple_etl.py lines 99-107:
pd.to_datetime is called with its default errors="raise", so one
unparsable value in the column raises a ValueError for the whole table;
only when every value parses are the derived columns produced.
parseDate is the environment's date parser, none meaning unparsable. -/
def transform_transactions (parseDate : String → Option (Nat × Nat × Nat))
    (rows : List TxnRow) : Except String (List TxnRowT) :=
  if rows.all (fun r => (parseDate r.transaction_date).isSome) then
    Except.ok (rows.map (txnDerive parseDate))
  else Except.error "time data could not be parsed"

/-- discriminator for the raised/returned outcome of a fallible step. -/
def exceptIsOk {ε α : Type} : Except ε α → Bool
  | Except.ok _ => true
  | Except.error _ => false

/-- np.clip(x, 0, 100) = min(max(x, 0), 100). -/
def clip0100 (x : ℚ) : ℚ := min (max x 0) 100

/-- round half to even at integer precision, the rounding of np.round:
an exact half goes to the even neighbour, anything else to the nearest
integer. -/
def roundHalfEven (q : ℚ) : ℤ :=
  if q - ⌊q⌋ = 1 / 2 then (if ⌊q⌋ % 2 = 0 then ⌊q⌋ else ⌊q⌋ + 1) else ⌊q + 1 / 2⌋

/-- Series.round(2): round half to even at two decimal places. -/
def round2 (q : ℚ) : ℚ := (roundHalfEven (q * 100) : ℚ) / 100

/-- the deterministic risk score formula of simple_etl.py line 127:
credit_score * 0.1 + 20. -/
def riskScoreFrom (cs : ℚ) : ℚ := cs * (1 / 10) + 20

/-- a risk_features output row. risk_score is none when the row's
credit_score is NaN (loan with no matching customer in the left join). -/
structure RiskRow where
  loan_id : String
  risk_score : Option ℚ
  risk_grade : Option String
deriving DecidableEq

/-- pd.merge(loans, customers, on="customer_id", how="left"): every loan row
is paired with each matching customer row, or with none when no customer
matches (its customer columns become NaN). -/
def mergeLeft (loans : List LoanRowT) (customers : List CustomerRowT) :
    List (LoanRowT × Option CustomerRowT) :=
  loans.flatMap (fun l =>
    if (customers.filter (fun c => c.customer_id == l.customer_id)).isEmpty then
      [(l, none)]
    else
      (customers.filter (fun c => c.customer_id == l.customer_id)).map
        (fun c => (l, some c)))

/-- create_risk_features, simple_etl.py lines 117-140. hasCS is the
column-presence test of line 126 (whether the merged frame has a
credit_score column at all); rng is the np.random.uniform(50, 90, n)
draw of line 129, indexed by row position, used only when the column is
absent.  risk_score is clipped to [0, 100] then rounded to 2 decimals;
risk_grade is pd.cut of the resulting risk_score (NaN stays NaN). -/
def create_risk_features (hasCS : Bool) (rng : Nat → ℚ)
    (loans : List LoanRowT) (customers : List CustomerRowT) : List RiskRow :=
  let merged := mergeLeft loans customers
  if hasCS then
    merged.map (fun p =>
      let rs : Option ℚ :=
        p.2.map (fun c => round2 (clip0100 (riskScoreFrom c.credit_score)))
      { loan_id := p.1.loan_id, risk_score := rs,
        risk_grade := rs.bind riskGradeOf })
  else
    merged.enum.map (fun ip =>
      let rs : ℚ := round2 (clip0100 (rng ip.1))
      { loan_id := ip.2.1.loan_id, risk_score := some rs,
        risk_grade := riskGradeOf rs })

/-- the risk_features row create_risk_features produces for a loan row
joined to a matching customer row. -/
def riskRowFor (l : LoanRowT) (c : CustomerRowT) : RiskRow :=
  { loan_id := l.loan_id,
    risk_score := some (round2 (clip0100 (riskScoreFrom c.credit_score))),
    risk_grade := riskGradeOf (round2 (clip0100 (riskScoreFrom c.credit_score))) }

/-- extract_data, simple_etl.py lines 42-57: for each configured
(dataset name, file path) entry, try to read the CSV; on any failure the
entry degrades to an empty table.  readCsv is the environment's file
reader, an error value meaning a raised read/parse exception. -/
def extract_data (readCsv : String → Except String Table)
    (sources : List (String × String)) : List (String × Table) :=
  sources.map (fun kp =>
    match readCsv kp.2 with
    | Except.ok df => (kp.1, df)
    | Except.error _ => (kp.1, ([] : Table)))

/-- the SQLite connection during load_data: the committed database state
and the state seen through the connection's open work (python sqlite3 in
its default deferred-transaction mode). -/
structure Conn where
  committed : Store
  pending : Store
deriving DecidableEq

/-- a fresh connection over a committed store. -/
def Conn.openConn (s : Store) : Conn := ⟨s, s⟩

/-- run a statement: only the uncommitted view changes. -/
def Conn.exec (c : Conn) (f : Store → Store) : Conn := ⟨c.committed, f c.pending⟩

/-- COMMIT: the pending work becomes durable. -/
def Conn.commit (c : Conn) : Conn := ⟨c.pending, c.pending⟩

/-- ROLLBACK: the pending work is discarded. -/
def Conn.rollback (c : Conn) : Conn := ⟨c.committed, c.committed⟩

/-- DataFrame.to_sql(name, conn, if_exists="replace") on a raw sqlite3
connection: pandas (pandas/io/sql.py, SQLiteDatabase.run_transaction)
drops/creates and inserts, then COMMITS on success and rolls its own
statements back on failure.  Each successful to_sql call is therefore
durable on its own, independent of the caller's later commit/rollback. -/
def to_sql (name : String) (df : Table) (c : Conn) : Conn :=
  (c.exec (fun s => Store.setTable s name df)).commit

/-- SELECT COUNT(*) of the summary query. -/
def sqlCountAll (t : Table) : Val := Val.vInt t.length

/-- SELECT SUM(col): NULL over an empty set, else the sum of the numeric
values (SQLite SUM skips non-numeric/NULL cells). -/
def sqlSumCol (t : Table) (col : String) : Val :=
  match t.filterMap (fun r => (Row.lookupVal r col).toRat?) with
  | [] => Val.vNull
  | v :: vs => Val.vRat ((v :: vs).sum)

/-- SUM(CASE WHEN current_status = 'ACTIVE' THEN 1 ELSE 0 END):
NULL over an empty table, else the number of ACTIVE rows. -/
def sqlCountActive (t : Table) : Val :=
  match t with
  | [] => Val.vNull
  | _ => Val.vInt (t.countP (fun r => Row.lookupVal r "current_status" == Val.vStr "ACTIVE"))

/-- AVG(col): NULL when no numeric value, else their mean. -/
def sqlAvgCol (t : Table) (col : String) : Val :=
  match t.filterMap (fun r => (Row.lookupVal r col).toRat?) with
  | [] => Val.vNull
  | v :: vs => Val.vRat ((v :: vs).sum / (v :: vs).length)

/-- the row inserted by create_portfolio_summary, computed by the
aggregate query of simple_etl.py lines 169-177 over the loans table. -/
def summaryRow (today : String) (loans : Table) : Row :=
  [("calculation_date", Val.vStr today),
   ("total_loans", sqlCountAll loans),
   ("total_disbursed", sqlSumCol loans "loan_amount"),
   ("active_loans", sqlCountActive loans),
   ("avg_interest_rate", sqlAvgCol loans "interest_rate")]

/-- create_portfolio_summary, simple_etl.py lines 165-193: the SELECT
needs a loans table and the INSERT needs a portfolio_summary table; any
exception is caught and only logged, leaving the store as it was.  The
aggregate SELECT always returns one (possibly all-NULL) row, so the
truthiness guard on the fetched tuple always passes. -/
def create_portfolio_summary (today : String) (s : Store) : Store :=
  match Store.getTable s "loans" with
  | none => s
  | some loans =>
    match Store.getTable s "portfolio_summary" with
    | none => s
    | some ps => Store.setTable s "portfolio_summary" (ps ++ [summaryRow today loans])

/-- environment of one load_data call: which table writes fail (an
environmental to_sql exception, e.g. a disk error), and date('now'). -/
structure LoadEnv where
  writeFails : String → Bool
  today : String

/-- the for-loop of load_data, simple_etl.py lines 148-152: write each
non-empty table with to_sql (which commits per call); a failing to_sql
rolls back only its own statements and raises out of the loop. -/
def writeLoop (env : LoadEnv) : List (String × Table) → Conn → Option String × Conn
  | [], c => (none, c)
  | (name, df) :: rest, c =>
    if df.isEmpty then writeLoop env rest c
    else if env.writeFails name then (some name, c.rollback)
    else writeLoop env rest (to_sql name df c)

/-- load_data, simple_etl.py lines 142-163: write the non-empty tables,
then append the portfolio summary, then COMMIT; on an exception,
ROLLBACK and re-raise (first component some errorTable).  The second
component is the committed store the caller observes afterwards. -/
def load_data (env : LoadEnv) (data : List (String × Table)) (s : Store) :
    Option String × Store :=
  match writeLoop env data (Conn.openConn s) with
  | (some e, c) => (some e, c.rollback.committed)
  | (none, c) => (none, ((c.exec (create_portfolio_summary env.today)).commit).committed)

/-- cumulative effect of the write loop when every write succeeds:
replace each non-empty table in order. -/
def applyWrites : List (String × Table) → Store → Store
  | [], s => s
  | p :: rest, s =>
    applyWrites rest (if p.2.isEmpty then s else Store.setTable s p.1 p.2)

/-- the last non-empty table a write list binds to a name, if any
(later writes win). -/
def lastWrite (n : String) : List (String × Table) → Option Table
  | [] => none
  | p :: rest =>
    Option.or (lastWrite n rest) (if p.1 = n ∧ ¬p.2.isEmpty then some p.2 else none)

/-- a degenerate uniform draw, usable wherever an rng oracle is needed. -/
def rng0 : Nat → ℚ := fun _ => 50

/-- a sample loan row with the given interest rate. -/
def loanRowAt (ir : ℚ) : LoanRow :=
  { loan_id := "L1", customer_id := "C1", loan_amount := 100000,
    interest_rate := ir, tenure_months := 24, emi_amount := 5000,
    current_status := "ACTIVE" }

/-- a sample customer. -/
def custC1 : CustomerRow := { customer_id := "C1", credit_score := 800 }

/-- the sample customer after the customers transform. -/
def ctA : CustomerRowT := customerDerive custC1

/-- the sample loan after the loans transform. -/
def ltA : LoanRowT := loanDerive (loanRowAt 12)

/-- a loan whose customer_id matches no customer in the sample table. -/
def loanOrphan : LoanRow :=
  { loan_id := "L2", customer_id := "C9", loan_amount := 100000,
    interest_rate := 12, tenure_months := 24, emi_amount := 5000,
    current_status := "ACTIVE" }

/-- a concrete date parser environment: exactly two parsable strings. -/
def parseDateX (s : String) : Option (Nat × Nat × Nat) :=
  if s = "2023-01-15" then some (2023, 1, 15)
  else if s = "2023-02-03" then some (2023, 2, 3)
  else none

/-- a transaction row whose date parseDateX accepts. -/
def txnGood : TxnRow :=
  { transaction_id := "T1", loan_id := "L1", transaction_date := "2023-01-15" }

/-- a transaction row whose date parseDateX rejects. -/
def txnBad : TxnRow :=
  { transaction_id := "T2", loan_id := "L1", transaction_date := "not a date" }

/-- a stored customers row. -/
def rowCust1 : Row := [("customer_id", Val.vStr "CUST1")]

/-- a stored loans row with the columns the summary query aggregates. -/
def rowLoan1 : Row :=
  [("loan_amount", Val.vRat 100000), ("interest_rate", Val.vRat 12),
   ("current_status", Val.vStr "ACTIVE")]

/-- a freshly initialized store: the tables exist (simple_setup.py) and are
empty. -/
def st0 : Store := [("customers", []), ("loans", []), ("portfolio_summary", [])]

/-- a load environment in which every write succeeds. -/
def envOk : LoadEnv := { writeFails := fun _ => false, today := "2026-10-12" }

/-- a load environment in which exactly the loans write fails. -/
def envFailLoans : LoadEnv :=
  { writeFails := fun n => n == "loans", today := "2026-10-12" }

/-- a transformed table set with non-empty customers and loans tables. -/
def dataCL : List (String × Table) :=
  [("customers", [rowCust1]), ("loans", [rowLoan1])]

/-- a transformed table set with one non-empty loans table. -/
def dataL : List (String × Table) := [("loans", [rowLoan1])]

/-- a concrete reader environment: the customers path reads fine, every
other path raises. -/
def readCsvX (p : String) : Except String Table :=
  if p = "data_sources/customers.csv" then Except.ok [rowCust1]
  else Except.error "No such file or directory"

/-- the configured data_sources mapping of config.json. -/
def sourcesX : List (String × String) :=
  [("customers", "data_sources/customers.csv"),
   ("loans", "data_sources/loans.csv"),
   ("transactions", "data_sources/transactions.csv")]

theorem riskBandOf_eq_A {x : ℚ} (h1 : 0 < x) (h2 : x ≤ 10) :
    riskBandOf x = some "A" := by
  unfold riskBandOf
  rw [if_pos ⟨h1, h2⟩]

theorem riskBandOf_eq_B {x : ℚ} (h1 : 10 < x) (h2 : x ≤ 12) :
    riskBandOf x = some "B" := by
  unfold riskBandOf
  rw [if_neg (show ¬(0 < x ∧ x ≤ 10) by rintro ⟨-, hb⟩; linarith),
    if_pos ⟨h1, h2⟩]

theorem riskBandOf_eq_C {x : ℚ} (h1 : 12 < x) (h2 : x ≤ 14) :
    riskBandOf x = some "C" := by
  unfold riskBandOf
  rw [if_neg (show ¬(0 < x ∧ x ≤ 10) by rintro ⟨-, hb⟩; linarith),
    if_neg (show ¬(10 < x ∧ x ≤ 12) by rintro ⟨-, hb⟩; linarith),
    if_pos ⟨h1, h2⟩]

theorem riskBandOf_eq_D {x : ℚ} (h1 : 14 < x) (h2 : x ≤ 16) :
    riskBandOf x = some "D" := by
  unfold riskBandOf
  rw [if_neg (show ¬(0 < x ∧ x ≤ 10) by rintro ⟨-, hb⟩; linarith),
    if_neg (show ¬(10 < x ∧ x ≤ 12) by rintro ⟨-, hb⟩; linarith),
    if_neg (show ¬(12 < x ∧ x ≤ 14) by rintro ⟨-, hb⟩; linarith),
    if_pos ⟨h1, h2⟩]

theorem riskBandOf_eq_E {x : ℚ} (h1 : 16 < x) (h2 : x ≤ 100) :
    riskBandOf x = some "E" := by
  unfold riskBandOf
  rw [if_neg (show ¬(0 < x ∧ x ≤ 10) by rintro ⟨-, hb⟩; linarith),
    if_neg (show ¬(10 < x ∧ x ≤ 12) by rintro ⟨-, hb⟩; linarith),
    if_neg (show ¬(12 < x ∧ x ≤ 14) by rintro ⟨-, hb⟩; linarith),
    if_neg (show ¬(14 < x ∧ x ≤ 16) by rintro ⟨-, hb⟩; linarith),
    if_pos ⟨h1, h2⟩]

theorem riskGradeOf_eq_E {x : ℚ} (h1 : 0 < x) (h2 : x ≤ 60) :
    riskGradeOf x = some "E" := by
  unfold riskGradeOf
  rw [if_pos ⟨h1, h2⟩]

theorem riskGradeOf_eq_D {x : ℚ} (h1 : 60 < x) (h2 : x ≤ 70) :
    riskGradeOf x = some "D" := by
  unfold riskGradeOf
  rw [if_neg (show ¬(0 < x ∧ x ≤ 60) by rintro ⟨-, hb⟩; linarith),
    if_pos ⟨h1, h2⟩]

theorem riskGradeOf_eq_C {x : ℚ} (h1 : 70 < x) (h2 : x ≤ 80) :
    riskGradeOf x = some "C" := by
  unfold riskGradeOf
  rw [if_neg (show ¬(0 < x ∧ x ≤ 60) by rintro ⟨-, hb⟩; linarith),
    if_neg (show ¬(60 < x ∧ x ≤ 70) by rintro ⟨-, hb⟩; linarith),
    if_pos ⟨h1, h2⟩]

theorem riskGradeOf_eq_B {x : ℚ} (h1 : 80 < x) (h2 : x ≤ 90) :
    riskGradeOf x = some "B" := by
  unfold riskGradeOf
  rw [if_neg (show ¬(0 < x ∧ x ≤ 60) by rintro ⟨-, hb⟩; linarith),
    if_neg (show ¬(60 < x ∧ x ≤ 70) by rintro ⟨-, hb⟩; linarith),
    if_neg (show ¬(70 < x ∧ x ≤ 80) by rintro ⟨-, hb⟩; linarith),
    if_pos ⟨h1, h2⟩]

theorem riskGradeOf_eq_A {x : ℚ} (h1 : 90 < x) (h2 : x ≤ 100) :
    riskGradeOf x = some "A" := by
  unfold riskGradeOf
  rw [if_neg (show ¬(0 < x ∧ x ≤ 60) by rintro ⟨-, hb⟩; linarith),
    if_neg (show ¬(60 < x ∧ x ≤ 70) by rintro ⟨-, hb⟩; linarith),
    if_neg (show ¬(70 < x ∧ x ≤ 80) by rintro ⟨-, hb⟩; linarith),
    if_neg (show ¬(80 < x ∧ x ≤ 90) by rintro ⟨-, hb⟩; linarith),
    if_pos ⟨h1, h2⟩]

theorem customer_segment_of_premium {x : ℚ} (h : 750 ≤ x) :
    customer_segment_of x = "Premium" := by
  unfold customer_segment_of
  rw [if_pos h]

theorem customer_segment_of_gold {x : ℚ} (h1 : 700 ≤ x) (h2 : x < 750) :
    customer_segment_of x = "Gold" := by
  unfold customer_segment_of
  rw [if_neg (show ¬750 ≤ x by linarith), if_pos ⟨h1, h2⟩]

theorem customer_segment_of_silver {x : ℚ} (h1 : 650 ≤ x) (h2 : x < 700) :
    customer_segment_of x = "Silver" := by
  unfold customer_segment_of
  rw [if_neg (show ¬750 ≤ x by linarith),
    if_neg (show ¬(700 ≤ x ∧ x < 750) by rintro ⟨hc, -⟩; linarith),
    if_pos ⟨h1, h2⟩]

theorem customer_segment_of_standard {x : ℚ} (h : x < 650) :
    customer_segment_of x = "Standard" := by
  unfold customer_segment_of
  rw [if_neg (show ¬750 ≤ x by linarith),
    if_neg (show ¬(700 ≤ x ∧ x < 750) by rintro ⟨hc, -⟩; linarith),
    if_neg (show ¬(650 ≤ x ∧ x < 700) by rintro ⟨hc, -⟩; linarith),
    if_pos h]

theorem customer_segment_of_mem (x : ℚ) :
    customer_segment_of x ∈ ["Premium", "Gold", "Silver", "Standard"] := by
  unfold customer_segment_of
  split_ifs <;> simp

theorem mem_mergeLeft {loans : List LoanRowT} {customers : List CustomerRowT}
    {l : LoanRowT} {c : CustomerRowT} (hl : l ∈ loans) (hc : c ∈ customers)
    (hid : c.customer_id = l.customer_id) :
    (l, some c) ∈ mergeLeft loans customers := by
  unfold mergeLeft
  refine List.mem_flatMap.mpr ⟨l, hl, ?_⟩
  have hcf : c ∈ customers.filter (fun x => x.customer_id == l.customer_id) :=
    List.mem_filter.mpr ⟨hc, by simp [hid]⟩
  rw [if_neg]
  · exact List.mem_map.mpr ⟨c, hcf, rfl⟩
  · intro hI
    rw [List.isEmpty_iff] at hI
    exact List.ne_nil_of_mem hcf hI

theorem mem_create_risk_features_true (rng : Nat → ℚ) {loans : List LoanRowT}
    {customers : List CustomerRowT} {l : LoanRowT} {c : CustomerRowT}
    (hl : l ∈ loans) (hc : c ∈ customers)
    (hid : c.customer_id = l.customer_id) :
    riskRowFor l c ∈ create_risk_features true rng loans customers := by
  unfold create_risk_features
  rw [if_pos rfl]
  exact List.mem_map.mpr ⟨(l, some c), mem_mergeLeft hl hc hid, rfl⟩

/-- C4: on every non-empty customers table, the customer transform assigns
customer_segment to exactly one of Premium, Gold, Silver, Standard,
boundary-exact at 650, 700 and 750: a score of at least 750 gives Premium,
one in [700, 750) gives Gold, one in [650, 700) gives Silver, and one
below 650 gives Standard. -/
theorem transform_customers_segment_bins (rows : List CustomerRow)
    (hne : rows ≠ []) (rt : CustomerRowT)
    (hmem : rt ∈ transform_customers rows) :
    rt.customer_segment ∈ ["Premium", "Gold", "Silver", "Standard"] ∧
    (750 ≤ rt.credit_score → rt.customer_segment = "Premium") ∧
    (700 ≤ rt.credit_score ∧ rt.credit_score < 750 → rt.customer_segment = "Gold") ∧
    (650 ≤ rt.credit_score ∧ rt.credit_score < 700 → rt.customer_segment = "Silver") ∧
    (rt.credit_score < 650 → rt.customer_segment = "Standard") := by
  simp only [transform_customers, List.mem_map] at hmem
  obtain ⟨r, -, rfl⟩ := hmem
  exact ⟨customer_segment_of_mem r.credit_score,
    fun h => customer_segment_of_premium h,
    fun h => customer_segment_of_gold h.1 h.2,
    fun h => customer_segment_of_silver h.1 h.2,
    fun h => customer_segment_of_standard h⟩

/-- witness for C4 at the boundary scores 750, 749, 700, 699, 650 and 649. -/
theorem transform_customers_segment_bins_witness :
    (customerDerive ⟨"C1", 750⟩).customer_segment = "Premium" ∧
    (customerDerive ⟨"C2", 749⟩).customer_segment = "Gold" ∧
    (customerDerive ⟨"C3", 700⟩).customer_segment = "Gold" ∧
    (customerDerive ⟨"C4", 699⟩).customer_segment = "Silver" ∧
    (customerDerive ⟨"C5", 650⟩).customer_segment = "Silver" ∧
    (customerDerive ⟨"C6", 649⟩).customer_segment = "Standard" := by
  refine ⟨?_, ?_, ?_, ?_, ?_, ?_⟩
  · exact (transform_customers_segment_bins [⟨"C1", 750⟩] (by simp)
      (customerDerive ⟨"C1", 750⟩) (by simp [transform_customers])).2.1
      (by norm_num [customerDerive])
  · exact (transform_customers_segment_bins [⟨"C2", 749⟩] (by simp)
      (customerDerive ⟨"C2", 749⟩) (by simp [transform_customers])).2.2.1
      ⟨by norm_num [customerDerive], by norm_num [customerDerive]⟩
  · exact (transform_customers_segment_bins [⟨"C3", 700⟩] (by simp)
      (customerDerive ⟨"C3", 700⟩) (by simp [transform_customers])).2.2.1
      ⟨by norm_num [customerDerive], by norm_num [customerDerive]⟩
  · exact (transform_customers_segment_bins [⟨"C4", 699⟩] (by simp)
      (customerDerive ⟨"C4", 699⟩) (by simp [transform_customers])).2.2.2.1
      ⟨by norm_num [customerDerive], by norm_num [customerDerive]⟩
  · exact (transform_customers_segment_bins [⟨"C5", 650⟩] (by simp)
      (customerDerive ⟨"C5", 650⟩) (by simp [transform_customers])).2.2.2.1
      ⟨by norm_num [customerDerive], by norm_num [customerDerive]⟩
  · exact (transform_customers_segment_bins [⟨"C6", 649⟩] (by simp)
      (customerDerive ⟨"C6", 649⟩) (by simp [transform_customers])).2.2.2.2
      (by norm_num [customerDerive])

/-- C3: on every non-empty loans table, the loan transform assigns risk_band
by binning interest_rate into (0,10] A, (10,12] B, (12,14] C, (14,16] D
and (16,100] E, boundary-exact at 10, 12, 14 and 16. -/
theorem transform_loans_risk_band_bins (rows : List LoanRow) (hne : rows ≠ [])
    (rt : LoanRowT) (hmem : rt ∈ transform_loans rows) :
    (0 < rt.interest_rate ∧ rt.interest_rate ≤ 10 → rt.risk_band = some "A") ∧
    (10 < rt.interest_rate ∧ rt.interest_rate ≤ 12 → rt.risk_band = some "B") ∧
    (12 < rt.interest_rate ∧ rt.interest_rate ≤ 14 → rt.risk_band = some "C") ∧
    (14 < rt.interest_rate ∧ rt.interest_rate ≤ 16 → rt.risk_band = some "D") ∧
    (16 < rt.interest_rate ∧ rt.interest_rate ≤ 100 → rt.risk_band = some "E") := by
  simp only [transform_loans, List.mem_map] at hmem
  obtain ⟨r, -, rfl⟩ := hmem
  exact ⟨fun h => riskBandOf_eq_A h.1 h.2, fun h => riskBandOf_eq_B h.1 h.2,
    fun h => riskBandOf_eq_C h.1 h.2, fun h => riskBandOf_eq_D h.1 h.2,
    fun h => riskBandOf_eq_E h.1 h.2⟩

/-- witness for C3 at the boundary rates 10, 10.01, 16 and 16.01. -/
theorem transform_loans_risk_band_bins_witness :
    (loanDerive (loanRowAt 10)).risk_band = some "A" ∧
    (loanDerive (loanRowAt (1001 / 100))).risk_band = some "B" ∧
    (loanDerive (loanRowAt 16)).risk_band = some "D" ∧
    (loanDerive (loanRowAt (1601 / 100))).risk_band = some "E" := by
  refine ⟨?_, ?_, ?_, ?_⟩
  · exact (transform_loans_risk_band_bins [loanRowAt 10] (by simp)
      (loanDerive (loanRowAt 10)) (by simp [transform_loans])).1
      ⟨by norm_num [loanDerive, loanRowAt], by norm_num [loanDerive, loanRowAt]⟩
  · exact (transform_loans_risk_band_bins [loanRowAt (1001 / 100)] (by simp)
      (loanDerive (loanRowAt (1001 / 100))) (by simp [transform_loans])).2.1
      ⟨by norm_num [loanDerive, loanRowAt], by norm_num [loanDerive, loanRowAt]⟩
  · exact (transform_loans_risk_band_bins [loanRowAt 16] (by simp)
      (loanDerive (loanRowAt 16)) (by simp [transform_loans])).2.2.2.1
      ⟨by norm_num [loanDerive, loanRowAt], by norm_num [loanDerive, loanRowAt]⟩
  · exact (transform_loans_risk_band_bins [loanRowAt (1601 / 100)] (by simp)
      (loanDerive (loanRowAt (1601 / 100))) (by simp [transform_loans])).2.2.2.2
      ⟨by norm_num [loanDerive, loanRowAt], by norm_num [loanDerive, loanRowAt]⟩

/-- C7: on every non-empty loans table the loan transform sets
total_payable = emi_amount * tenure_months and
total_interest = total_payable - loan_amount on every row; in particular
the loan row with loan_amount 100000, emi_amount 5000 and tenure_months 24
gets total_payable 120000 and total_interest 20000. -/
theorem transform_loans_totals :
    (∀ rows : List LoanRow, rows ≠ [] → ∀ rt ∈ transform_loans rows,
      rt.total_payable = rt.emi_amount * rt.tenure_months ∧
      rt.total_interest = rt.total_payable - rt.loan_amount) ∧
    (loanDerive (loanRowAt 12)).total_payable = 120000 ∧
    (loanDerive (loanRowAt 12)).total_interest = 20000 := by
  refine ⟨?_, by norm_num [loanDerive, loanRowAt], by norm_num [loanDerive, loanRowAt]⟩
  intro rows hne rt hmem
  simp only [transform_loans, List.mem_map] at hmem
  obtain ⟨r, -, rfl⟩ := hmem
  exact ⟨rfl, rfl⟩

/-- witness for C7 at the claim's concrete loan row. -/
theorem transform_loans_totals_witness :
    (loanDerive (loanRowAt 12)).total_payable =
      (loanDerive (loanRowAt 12)).emi_amount * (loanDerive (loanRowAt 12)).tenure_months ∧
    (loanDerive (loanRowAt 12)).total_interest =
      (loanDerive (loanRowAt 12)).total_payable - (loanDerive (loanRowAt 12)).loan_amount := by
  exact transform_loans_totals.1 [loanRowAt 12] (by simp)
    (loanDerive (loanRowAt 12)) (by simp [transform_loans])

/-- C6: every risk_features row carries risk_grade derived from its
risk_score by the binning (0,60] E, (60,70] D, (70,80] C, (80,90] B,
(90,100] A, boundary-exact at 60, 70, 80 and 90. -/
theorem create_risk_features_grade_bins (b : Bool) (rng : Nat → ℚ)
    (loans : List LoanRowT) (customers : List CustomerRowT)
    (r : RiskRow) (hmem : r ∈ create_risk_features b rng loans customers) :
    r.risk_grade = r.risk_score.bind riskGradeOf ∧
    (∀ k : ℚ,
      (0 < k ∧ k ≤ 60 → riskGradeOf k = some "E") ∧
      (60 < k ∧ k ≤ 70 → riskGradeOf k = some "D") ∧
      (70 < k ∧ k ≤ 80 → riskGradeOf k = some "C") ∧
      (80 < k ∧ k ≤ 90 → riskGradeOf k = some "B") ∧
      (90 < k ∧ k ≤ 100 → riskGradeOf k = some "A")) := by
  constructor
  · unfold create_risk_features at hmem
    split at hmem <;>
      (obtain ⟨p, -, rfl⟩ := List.mem_map.mp hmem; rfl)
  · intro k
    exact ⟨fun h => riskGradeOf_eq_E h.1 h.2, fun h => riskGradeOf_eq_D h.1 h.2,
      fun h => riskGradeOf_eq_C h.1 h.2, fun h => riskGradeOf_eq_B h.1 h.2,
      fun h => riskGradeOf_eq_A h.1 h.2⟩

/-- witness for C6 at a concrete risk_features row and the boundary scores
60, 60.01, 90 and 90.01. -/
theorem create_risk_features_grade_bins_witness :
    (riskRowFor ltA ctA).risk_grade =
      (riskRowFor ltA ctA).risk_score.bind riskGradeOf ∧
    riskGradeOf 60 = some "E" ∧ riskGradeOf (6001 / 100) = some "D" ∧
    riskGradeOf 90 = some "B" ∧ riskGradeOf (9001 / 100) = some "A" := by
  have h := create_risk_features_grade_bins true rng0 [ltA] [ctA]
    (riskRowFor ltA ctA)
    (mem_create_risk_features_true rng0 (List.mem_singleton_self ltA)
      (List.mem_singleton_self ctA) rfl)
  exact ⟨h.1, (h.2 60).1 ⟨by norm_num, by norm_num⟩,
    (h.2 (6001 / 100)).2.1 ⟨by norm_num, by norm_num⟩,
    (h.2 90).2.2.2.1 ⟨by norm_num, by norm_num⟩,
    (h.2 (9001 / 100)).2.2.2.2 ⟨by norm_num, by norm_num⟩⟩

theorem roundHalfEven_nonneg {q : ℚ} (h : 0 ≤ q) : 0 ≤ roundHalfEven q := by
  unfold roundHalfEven
  have hf : (0 : ℤ) ≤ ⌊q⌋ := Int.floor_nonneg.mpr h
  split_ifs with h1 h2
  · exact hf
  · omega
  · exact Int.floor_nonneg.mpr (by linarith)

theorem roundHalfEven_le {q : ℚ} {n : ℤ} (h : q ≤ (n : ℚ)) :
    roundHalfEven q ≤ n := by
  unfold roundHalfEven
  split_ifs with h1 h2
  · have hlt : (⌊q⌋ : ℚ) < (n : ℚ) := by linarith
    have hlt' : ⌊q⌋ < n := by exact_mod_cast hlt
    omega
  · have hlt : (⌊q⌋ : ℚ) < (n : ℚ) := by linarith
    have hlt' : ⌊q⌋ < n := by exact_mod_cast hlt
    omega
  · rw [Int.floor_le_iff]
    push_cast
    linarith

theorem round2_clip0100_nonneg (x : ℚ) : 0 ≤ round2 (clip0100 x) := by
  unfold round2
  have h0 : (0 : ℚ) ≤ clip0100 x := le_min (le_max_right x 0) (by norm_num)
  have h1 : (0 : ℤ) ≤ roundHalfEven (clip0100 x * 100) :=
    roundHalfEven_nonneg (mul_nonneg h0 (by norm_num))
  have h2 : (0 : ℚ) ≤ (roundHalfEven (clip0100 x * 100) : ℚ) := by exact_mod_cast h1
  exact div_nonneg h2 (by norm_num)

theorem round2_clip0100_le (x : ℚ) : round2 (clip0100 x) ≤ 100 := by
  unfold round2
  rw [div_le_iff (by norm_num : (0 : ℚ) < 100)]
  have h1 : clip0100 x ≤ 100 := min_le_right _ _
  have h2 : clip0100 x * 100 ≤ ((10000 : ℤ) : ℚ) := by
    push_cast
    nlinarith [h1]
  have h3 : roundHalfEven (clip0100 x * 100) ≤ (10000 : ℤ) := roundHalfEven_le h2
  have h4 : (roundHalfEven (clip0100 x * 100) : ℚ) ≤ ((10000 : ℤ) : ℚ) := by
    exact_mod_cast h3
  push_cast at h4
  linarith

/-- C5 (amended): in the loans-to-customers left join, every loan row that
matches a customer gets risk_score = credit_score * 0.1 + 20, clamped to
[0, 100] and rounded to 2 decimals, and every non-null risk_score lies in
[0, 100]; a loan row matching no customer gets a null risk_score (the
original claim's "risk_score always in [0, 100]" fails on such rows). -/
theorem create_risk_features_score (rng : Nat → ℚ) (loans : List LoanRowT)
    (customers : List CustomerRowT) :
    (∀ r ∈ create_risk_features true rng loans customers,
      ∀ q : ℚ, r.risk_score = some q → 0 ≤ q ∧ q ≤ 100) ∧
    (∀ l ∈ loans, ∀ c ∈ customers, c.customer_id = l.customer_id →
      ({ loan_id := l.loan_id,
         risk_score := some (round2 (clip0100 (c.credit_score * (1 / 10) + 20))),
         risk_grade :=
           riskGradeOf (round2 (clip0100 (c.credit_score * (1 / 10) + 20))) } : RiskRow)
        ∈ create_risk_features true rng loans customers) := by
  constructor
  · intro r hmem q hq
    unfold create_risk_features at hmem
    rw [if_pos rfl] at hmem
    obtain ⟨⟨l, oc⟩, -, rfl⟩ := List.mem_map.mp hmem
    cases oc with
    | none => exact Option.noConfusion hq
    | some c =>
      rw [← Option.some.inj hq]
      exact ⟨round2_clip0100_nonneg _, round2_clip0100_le _⟩
  · intro l hl c hc hid
    exact mem_create_risk_features_true rng hl hc hid

/-- counterexample to C5 as stated: a loan row whose customer_id matches no
customer keeps the credit_score column NaN through the left join, so its
risk_score is null rather than a number in [0, 100]. -/
theorem create_risk_features_score_counterexample :
    ¬ (∀ r ∈ create_risk_features true rng0 [loanDerive loanOrphan] [ctA],
        ∃ q : ℚ, r.risk_score = some q ∧ 0 ≤ q ∧ q ≤ 100) := by
  intro hall
  obtain ⟨q, hq, -⟩ := hall ⟨"L2", none, none⟩ (by decide)
  exact Option.noConfusion hq

/-- witness for C5 on a matched loan-customer pair with credit score 800. -/
theorem create_risk_features_score_witness :
    ({ loan_id := ltA.loan_id,
       risk_score := some (round2 (clip0100 (ctA.credit_score * (1 / 10) + 20))),
       risk_grade :=
         riskGradeOf (round2 (clip0100 (ctA.credit_score * (1 / 10) + 20))) } : RiskRow)
      ∈ create_risk_features true rng0 [ltA] [ctA] ∧
    0 ≤ round2 (clip0100 (ctA.credit_score * (1 / 10) + 20)) ∧
    round2 (clip0100 (ctA.credit_score * (1 / 10) + 20)) ≤ 100 := by
  have h := create_risk_features_score rng0 [ltA] [ctA]
  refine ⟨h.2 ltA (List.mem_singleton_self ltA) ctA (List.mem_singleton_self ctA) rfl, ?_⟩
  exact h.1 (riskRowFor ltA ctA)
    (mem_create_risk_features_true rng0 (List.mem_singleton_self ltA)
      (List.mem_singleton_self ctA) rfl)
    (round2 (clip0100 (ctA.credit_score * (1 / 10) + 20))) rfl

/-- C2 (amended): pd.to_datetime is called with its default errors="raise",
so a transactions table containing one unparsable transaction_date makes
the transform raise (the row is not retained with null derived fields);
only when every row's date parses does each row get its parsed date and
its YYYY-MM transaction_month. -/
theorem transform_transactions_strict
    (parseDate : String → Option (Nat × Nat × Nat)) (rows : List TxnRow) :
    ((∃ r ∈ rows, parseDate r.transaction_date = none) →
      exceptIsOk (transform_transactions parseDate rows) = false) ∧
    ((∀ r ∈ rows, (parseDate r.transaction_date).isSome) →
      transform_transactions parseDate rows =
        Except.ok (rows.map (txnDerive parseDate))) := by
  constructor
  · rintro ⟨r, hr, hnone⟩
    have hcond : ¬(rows.all (fun r => (parseDate r.transaction_date).isSome) = true) := by
      intro hall
      simp only [List.all_eq_true] at hall
      have hsome := hall r hr
      rw [hnone] at hsome
      simp at hsome
    unfold transform_transactions
    rw [if_neg hcond]
    rfl
  · intro hall
    have hcond : rows.all (fun r => (parseDate r.transaction_date).isSome) = true := by
      simp only [List.all_eq_true]
      intro r hr
      exact hall r hr
    unfold transform_transactions
    rw [if_pos hcond]

/-- counterexample to C2 as stated: a table with one parsable and one
unparsable date makes the transform raise instead of keeping the bad row
with null derived fields. -/
theorem transform_transactions_counterexample :
    exceptIsOk (transform_transactions parseDateX [txnGood, txnBad]) = false := by
  decide

/-- witness for C2: a bad row raises; an all-good table gets its derived
columns. -/
theorem transform_transactions_strict_witness :
    exceptIsOk (transform_transactions parseDateX [txnBad]) = false ∧
    transform_transactions parseDateX [txnGood] =
      Except.ok [txnDerive parseDateX txnGood] := by
  constructor
  · exact (transform_transactions_strict parseDateX [txnBad]).1
      ⟨txnBad, List.mem_singleton_self txnBad, rfl⟩
  · exact (transform_transactions_strict parseDateX [txnGood]).2 (by decide)

/-- C8: extract_data never raises: it returns exactly one entry per
configured dataset name, in order; an entry whose read succeeds maps to
the parsed table and an entry whose read fails maps to an empty table. -/
theorem extract_data_per_source (readCsv : String → Except String Table)
    (sources : List (String × String)) :
    (extract_data readCsv sources).map Prod.fst = sources.map Prod.fst ∧
    (extract_data readCsv sources).length = sources.length ∧
    ∀ kp ∈ sources,
      (∀ df : Table, readCsv kp.2 = Except.ok df →
        (kp.1, df) ∈ extract_data readCsv sources) ∧
      (∀ e : String, readCsv kp.2 = Except.error e →
        (kp.1, ([] : Table)) ∈ extract_data readCsv sources) := by
  refine ⟨?_, ?_, ?_⟩
  · unfold extract_data
    induction sources with
    | nil => rfl
    | cons kp rest ih =>
      rw [List.map_cons, List.map_cons, List.map_cons, ih]
      cases h : readCsv kp.2 <;> rfl
  · unfold extract_data
    rw [List.length_map]
  · intro kp hkp
    constructor
    · intro df hdf
      unfold extract_data
      refine List.mem_map.mpr ⟨kp, hkp, ?_⟩
      simp only [hdf]
    · intro e he
      unfold extract_data
      refine List.mem_map.mpr ⟨kp, hkp, ?_⟩
      simp only [he]

/-- witness for C8 on the configured three sources with only the customers
file readable. -/
theorem extract_data_per_source_witness :
    extract_data readCsvX sourcesX =
      [("customers", [rowCust1]), ("loans", ([] : Table)),
       ("transactions", ([] : Table))] ∧
    ("customers", [rowCust1]) ∈ extract_data readCsvX sourcesX ∧
    ("loans", ([] : Table)) ∈ extract_data readCsvX sourcesX := by
  refine ⟨rfl, ?_, ?_⟩
  · exact ((extract_data_per_source readCsvX sourcesX).2.2
      ("customers", "data_sources/customers.csv") (by decide)).1 [rowCust1] rfl
  · exact ((extract_data_per_source readCsvX sourcesX).2.2
      ("loans", "data_sources/loans.csv") (by decide)).2
      "No such file or directory" rfl

theorem option_none_or {α : Type} (b : Option α) : Option.or none b = b := rfl

theorem option_or_none {α : Type} (a : Option α) : Option.or a none = a := by
  cases a <;> rfl

theorem option_or_assoc {α : Type} (a b c : Option α) :
    Option.or (Option.or a b) c = Option.or a (Option.or b c) := by
  cases a <;> rfl

theorem option_or_self {α : Type} (a : Option α) : Option.or a a = a := by
  cases a <;> rfl

theorem getTable_map_replace (s : Store) (name : String) (t : Table)
    (hex : (Store.getTable s name).isSome) :
    Store.getTable (s.map (fun p => if p.1 = name then (name, t) else p)) name =
      some t := by
  induction s with
  | nil => simp [Store.getTable] at hex
  | cons p rest ih =>
    by_cases hp : p.1 = name
    · simp [List.map_cons, hp, Store.getTable]
    · simp only [List.map_cons, if_neg hp, Store.getTable]
      apply ih
      simpa [Store.getTable, hp] using hex

theorem getTable_append_single (s : Store) (name : String) (t : Table)
    (hnone : Store.getTable s name = none) :
    Store.getTable (s ++ [(name, t)]) name = some t := by
  induction s with
  | nil => simp [Store.getTable]
  | cons p rest ih =>
    have hp : ¬p.1 = name := by
      intro hc
      simp [Store.getTable, hc] at hnone
    simp only [List.cons_append, Store.getTable, if_neg hp]
    apply ih
    simpa [Store.getTable, hp] using hnone

theorem getTable_setTable_self (s : Store) (name : String) (t : Table) :
    Store.getTable (Store.setTable s name t) name = some t := by
  unfold Store.setTable
  split_ifs with hex
  · exact getTable_map_replace s name t hex
  · exact getTable_append_single s name t (Option.not_isSome_iff_eq_none.mp hex)

theorem getTable_map_replace_ne (s : Store) (name n : String) (t : Table)
    (hne : n ≠ name) :
    Store.getTable (s.map (fun p => if p.1 = name then (name, t) else p)) n =
      Store.getTable s n := by
  induction s with
  | nil => rfl
  | cons p rest ih =>
    by_cases hp : p.1 = name
    · simp only [List.map_cons, if_pos hp, Store.getTable]
      rw [if_neg (show ¬name = n from fun hc => hne hc.symm),
        if_neg (show ¬p.1 = n from by rw [hp]; exact fun hc => hne hc.symm)]
      exact ih
    · simp only [List.map_cons, if_neg hp, Store.getTable]
      by_cases hpn : p.1 = n
      · rw [if_pos hpn, if_pos hpn]
      · rw [if_neg hpn, if_neg hpn]
        exact ih

theorem getTable_append_single_ne (s : Store) (name n : String) (t : Table)
    (hne : n ≠ name) :
    Store.getTable (s ++ [(name, t)]) n = Store.getTable s n := by
  induction s with
  | nil =>
    simp [Store.getTable, show ¬name = n from fun hc => hne hc.symm]
  | cons p rest ih =>
    simp only [List.cons_append, Store.getTable]
    by_cases hpn : p.1 = n
    · rw [if_pos hpn, if_pos hpn]
    · rw [if_neg hpn, if_neg hpn]
      exact ih

theorem getTable_setTable_ne (s : Store) (name n : String) (t : Table)
    (hne : n ≠ name) :
    Store.getTable (Store.setTable s name t) n = Store.getTable s n := by
  unfold Store.setTable
  split_ifs with hex
  · exact getTable_map_replace_ne s name n t hne
  · exact getTable_append_single_ne s name n t hne

theorem getTable_applyWrites (data : List (String × Table)) (s : Store) (n : String) :
    Store.getTable (applyWrites data s) n =
      Option.or (lastWrite n data) (Store.getTable s n) := by
  induction data generalizing s with
  | nil => rfl
  | cons p rest ih =>
    have hstep : Store.getTable (if p.2.isEmpty then s else Store.setTable s p.1 p.2) n =
        Option.or (if p.1 = n ∧ ¬p.2.isEmpty then some p.2 else none)
          (Store.getTable s n) := by
      by_cases he : p.2.isEmpty
      · rw [if_pos he, if_neg (by rintro ⟨-, hne2⟩; exact hne2 he)]
        rfl
      · rw [if_neg he]
        by_cases hpn : p.1 = n
        · subst hpn
          rw [if_pos ⟨rfl, he⟩, getTable_setTable_self]
          rfl
        · rw [if_neg (by rintro ⟨hc, -⟩; exact hpn hc),
            getTable_setTable_ne s p.1 n p.2 (fun hc => hpn hc.symm)]
          rfl
    show Store.getTable (applyWrites rest (if p.2.isEmpty then s else Store.setTable s p.1 p.2)) n = _
    rw [ih, hstep, ← option_or_assoc]
    rfl

theorem lastWrite_eq_none (n : String) (data : List (String × Table))
    (h : ∀ t : Table, (n, t) ∈ data → t.isEmpty = true) :
    lastWrite n data = none := by
  induction data with
  | nil => rfl
  | cons p rest ih =>
    simp only [lastWrite]
    rw [ih (fun t ht => h t (List.mem_cons_of_mem _ ht)), option_none_or, if_neg]
    rintro ⟨hpn, hpe⟩
    have hmem : (n, p.2) ∈ p :: rest := by
      rw [show (n, p.2) = p from by rw [← hpn]]
      exact List.mem_cons_self _ _
    exact hpe (h p.2 hmem)

theorem lastWrite_eq_none_of_ne (n : String) (data : List (String × Table))
    (h : ∀ p ∈ data, p.1 ≠ n) :
    lastWrite n data = none := by
  induction data with
  | nil => rfl
  | cons p rest ih =>
    simp only [lastWrite]
    rw [ih (fun q hq => h q (List.mem_cons_of_mem _ hq)), option_none_or, if_neg]
    rintro ⟨hpn, -⟩
    exact h p (List.mem_cons_self _ _) hpn

theorem writeLoop_ok (env : LoadEnv) (data : List (String × Table)) (s : Store)
    (hok : ∀ p ∈ data, p.2.isEmpty = false → env.writeFails p.1 = false) :
    writeLoop env data (Conn.openConn s) =
      (none, Conn.openConn (applyWrites data s)) := by
  induction data generalizing s with
  | nil => rfl
  | cons p rest ih =>
    obtain ⟨name, df⟩ := p
    by_cases he : df.isEmpty
    · show writeLoop env ((name, df) :: rest) ⟨s, s⟩ = _
      simp only [writeLoop, if_pos he]
      rw [show applyWrites ((name, df) :: rest) s = applyWrites rest s from by
        simp only [applyWrites, if_pos he]]
      exact ih s (fun q hq hqe => hok q (List.mem_cons_of_mem _ hq) hqe)
    · have hdf : df.isEmpty = false := by revert he; cases df.isEmpty <;> simp
      have hf : env.writeFails name = false :=
        hok (name, df) (List.mem_cons_self _ _) hdf
      show writeLoop env ((name, df) :: rest) ⟨s, s⟩ = _
      simp only [writeLoop, if_neg he]
      rw [if_neg (show ¬env.writeFails name = true by rw [hf]; simp)]
      rw [show applyWrites ((name, df) :: rest) s =
          applyWrites rest (Store.setTable s name df) from by
        simp only [applyWrites, if_neg he]]
      exact ih (Store.setTable s name df)
        (fun q hq hqe => hok q (List.mem_cons_of_mem _ hq) hqe)

theorem writeLoop_fail (env : LoadEnv) (pre : List (String × Table))
    (name : String) (df : Table) (post : List (String × Table)) (s : Store)
    (hpre : ∀ p ∈ pre, p.2.isEmpty = false → env.writeFails p.1 = false)
    (hdf : df.isEmpty = false) (hf : env.writeFails name = true) :
    writeLoop env (pre ++ (name, df) :: post) (Conn.openConn s) =
      (some name, Conn.openConn (applyWrites pre s)) := by
  induction pre generalizing s with
  | nil =>
    simp only [List.nil_append, writeLoop]
    rw [if_neg (show ¬df.isEmpty = true by rw [hdf]; simp), if_pos hf]
    rfl
  | cons p rest ih =>
    obtain ⟨pn, pd⟩ := p
    by_cases he : pd.isEmpty
    · show writeLoop env (((pn, pd) :: rest) ++ (name, df) :: post) ⟨s, s⟩ = _
      simp only [List.cons_append, writeLoop, if_pos he]
      rw [show applyWrites ((pn, pd) :: rest) s = applyWrites rest s from by
        simp only [applyWrites, if_pos he]]
      exact ih s (fun q hq hqe => hpre q (List.mem_cons_of_mem _ hq) hqe)
    · have hdfp : pd.isEmpty = false := by revert he; cases pd.isEmpty <;> simp
      have hfp : env.writeFails pn = false :=
        hpre (pn, pd) (List.mem_cons_self _ _) hdfp
      show writeLoop env (((pn, pd) :: rest) ++ (name, df) :: post) ⟨s, s⟩ = _
      simp only [List.cons_append, writeLoop, if_neg he]
      rw [if_neg (show ¬env.writeFails pn = true by rw [hfp]; simp)]
      rw [show applyWrites ((pn, pd) :: rest) s =
          applyWrites rest (Store.setTable s pn pd) from by
        simp only [applyWrites, if_neg he]]
      exact ih (Store.setTable s pn pd)
        (fun q hq hqe => hpre q (List.mem_cons_of_mem _ hq) hqe)

theorem writeLoop_shape (env : LoadEnv) (data : List (String × Table)) (s : Store) :
    writeLoop env data (Conn.openConn s) =
      (none, Conn.openConn (applyWrites data s)) ∨
    ∃ pre name df post, data = pre ++ (name, df) :: post ∧
      writeLoop env data (Conn.openConn s) =
        (some name, Conn.openConn (applyWrites pre s)) := by
  induction data generalizing s with
  | nil => exact Or.inl rfl
  | cons p rest ih =>
    obtain ⟨name, df⟩ := p
    by_cases he : df.isEmpty
    · have hstep : writeLoop env ((name, df) :: rest) (Conn.openConn s) =
          writeLoop env rest (Conn.openConn s) := by
        simp only [writeLoop, if_pos he]
      have happ : applyWrites ((name, df) :: rest) s = applyWrites rest s := by
        simp only [applyWrites, if_pos he]
      rcases ih s with h | ⟨pre, nm, d, post, hdata, h⟩
      · exact Or.inl (by rw [hstep, happ]; exact h)
      · refine Or.inr ⟨(name, df) :: pre, nm, d, post, by rw [hdata]; rfl, ?_⟩
        rw [hstep, show applyWrites ((name, df) :: pre) s = applyWrites pre s from by
          simp only [applyWrites, if_pos he]]
        exact h
    · by_cases hw : env.writeFails name
      · refine Or.inr ⟨[], name, df, rest, rfl, ?_⟩
        simp only [List.nil_append, writeLoop, if_neg he]
        rw [if_pos hw]
        rfl
      · have hstep : writeLoop env ((name, df) :: rest) (Conn.openConn s) =
            writeLoop env rest (Conn.openConn (Store.setTable s name df)) := by
          simp only [writeLoop, if_neg he]
          rw [if_neg hw]
          rfl
        have happ : applyWrites ((name, df) :: rest) s =
            applyWrites rest (Store.setTable s name df) := by
          simp only [applyWrites, if_neg he]
        rcases ih (Store.setTable s name df) with h | ⟨pre, nm, d, post, hdata, h⟩
        · exact Or.inl (by rw [hstep, happ]; exact h)
        · refine Or.inr ⟨(name, df) :: pre, nm, d, post, by rw [hdata]; rfl, ?_⟩
          rw [hstep, show applyWrites ((name, df) :: pre) s =
              applyWrites pre (Store.setTable s name df) from by
            simp only [applyWrites, if_neg he]]
          exact h

theorem load_data_ok (env : LoadEnv) (data : List (String × Table)) (s : Store)
    (hok : ∀ p ∈ data, p.2.isEmpty = false → env.writeFails p.1 = false) :
    load_data env data s =
      (none, create_portfolio_summary env.today (applyWrites data s)) := by
  unfold load_data
  rw [writeLoop_ok env data s hok]
  rfl

theorem load_data_fail (env : LoadEnv) (pre : List (String × Table))
    (name : String) (df : Table) (post : List (String × Table)) (s : Store)
    (hpre : ∀ p ∈ pre, p.2.isEmpty = false → env.writeFails p.1 = false)
    (hdf : df.isEmpty = false) (hf : env.writeFails name = true) :
    load_data env (pre ++ (name, df) :: post) s = (some name, applyWrites pre s) := by
  unfold load_data
  rw [writeLoop_fail env pre name df post s hpre hdf hf]
  rfl

theorem load_data_shape (env : LoadEnv) (data : List (String × Table)) (s : Store) :
    load_data env data s =
      (none, create_portfolio_summary env.today (applyWrites data s)) ∨
    ∃ pre name df post, data = pre ++ (name, df) :: post ∧
      load_data env data s = (some name, applyWrites pre s) := by
  rcases writeLoop_shape env data s with h | ⟨pre, nm, d, post, hdata, h⟩
  · exact Or.inl (by unfold load_data; rw [h]; rfl)
  · exact Or.inr ⟨pre, nm, d, post, hdata, by unfold load_data; rw [h]; rfl⟩

theorem getTable_create_portfolio_summary_ne (today : String) (s : Store)
    (n : String) (hn : n ≠ "portfolio_summary") :
    Store.getTable (create_portfolio_summary today s) n = Store.getTable s n := by
  unfold create_portfolio_summary
  cases hl : Store.getTable s "loans" with
  | none => rfl
  | some loans =>
    cases hp : Store.getTable s "portfolio_summary" with
    | none => rfl
    | some ps => exact getTable_setTable_ne s "portfolio_summary" n _ hn

theorem getTable_create_portfolio_summary_ps (today : String) (s : Store)
    (loans ps : Table) (hl : Store.getTable s "loans" = some loans)
    (hp : Store.getTable s "portfolio_summary" = some ps) :
    Store.getTable (create_portfolio_summary today s) "portfolio_summary" =
      some (ps ++ [summaryRow today loans]) := by
  unfold create_portfolio_summary
  rw [hl, hp]
  exact getTable_setTable_self s _ _

/-- C1 (amended): the table writes are committed per table, not as one
atomic unit: pandas to_sql on a raw sqlite3 connection commits each
successful table write on its own, so when every write succeeds all tables
are committed (followed by the portfolio summary), and when a write fails
the tables written earlier in that run remain committed - only the failing
write itself is rolled back - and the load error is propagated to the
caller with the store left at the already-committed writes. -/
theorem load_data_commits_per_table (env : LoadEnv)
    (data : List (String × Table)) (s : Store) :
    ((∀ p ∈ data, p.2.isEmpty = false → env.writeFails p.1 = false) →
      load_data env data s =
        (none, create_portfolio_summary env.today (applyWrites data s))) ∧
    (∀ pre name df post, data = pre ++ (name, df) :: post →
      (∀ p ∈ pre, p.2.isEmpty = false → env.writeFails p.1 = false) →
      df.isEmpty = false → env.writeFails name = true →
      load_data env data s = (some name, applyWrites pre s)) := by
  constructor
  · exact load_data_ok env data s
  · intro pre name df post hdata hpre hdf hf
    rw [hdata]
    exact load_data_fail env pre name df post s hpre hdf hf

/-- counterexample to C1 as stated: with the customers write succeeding and
the loans write failing, the rollback does not restore the customers
table - its replacement was already committed by to_sql - so the writes of
the run are not undone as one atomic unit. -/
theorem load_data_atomicity_counterexample :
    (load_data envFailLoans dataCL st0).1 = some "loans" ∧
    Store.getTable (load_data envFailLoans dataCL st0).2 "customers" ≠
      Store.getTable st0 "customers" := by
  decide

/-- witness for C1 on a fully-successful run and on a run whose second
write fails. -/
theorem load_data_commits_per_table_witness :
    load_data envOk dataL st0 =
      (none, create_portfolio_summary envOk.today (applyWrites dataL st0)) ∧
    load_data envFailLoans dataCL st0 =
      (some "loans", applyWrites [("customers", [rowCust1])] st0) := by
  constructor
  · exact (load_data_commits_per_table envOk dataL st0).1 (by decide)
  · exact (load_data_commits_per_table envFailLoans dataCL st0).2
      [("customers", [rowCust1])] "loans" [rowLoan1] [] rfl
      (by decide) (by decide) (by decide)

/-- C9: with the schema initialized (loans and portfolio_summary tables
exist), no write failures and a transformed table set (which never carries
a portfolio_summary entry), running the Loader twice with identical input
leaves every table except portfolio_summary identical after the second run,
while portfolio_summary gains exactly one row per run. -/
theorem load_data_idempotent_modulo_summary (env : LoadEnv)
    (data : List (String × Table)) (s : Store)
    (hok : ∀ p ∈ data, p.2.isEmpty = false → env.writeFails p.1 = false)
    (hloans : (Store.getTable s "loans").isSome)
    (hps : (Store.getTable s "portfolio_summary").isSome)
    (hnops : ∀ p ∈ data, p.1 ≠ "portfolio_summary") :
    (load_data env data s).1 = none ∧
    (load_data env data (load_data env data s).2).1 = none ∧
    (∀ n, n ≠ "portfolio_summary" →
      Store.getTable (load_data env data (load_data env data s).2).2 n =
        Store.getTable (load_data env data s).2 n) ∧
    (∃ t0 t1 t2 : Table,
      Store.getTable s "portfolio_summary" = some t0 ∧
      Store.getTable (load_data env data s).2 "portfolio_summary" = some t1 ∧
      Store.getTable (load_data env data (load_data env data s).2).2 "portfolio_summary" =
        some t2 ∧
      t1.length = t0.length + 1 ∧ t2.length = t1.length + 1) := by
  have h1 := load_data_ok env data s hok
  obtain ⟨t0, ht0⟩ := Option.isSome_iff_exists.mp hps
  have hLW : lastWrite "portfolio_summary" data = none :=
    lastWrite_eq_none_of_ne _ data hnops
  have hAps : Store.getTable (applyWrites data s) "portfolio_summary" = some t0 := by
    rw [getTable_applyWrites, hLW, option_none_or, ht0]
  have hAl : (Store.getTable (applyWrites data s) "loans").isSome := by
    rw [getTable_applyWrites]
    cases hlw : lastWrite "loans" data with
    | none => rw [option_none_or]; exact hloans
    | some t => rfl
  obtain ⟨lA, hlA⟩ := Option.isSome_iff_exists.mp hAl
  have h1ps : Store.getTable (load_data env data s).2 "portfolio_summary" =
      some (t0 ++ [summaryRow env.today lA]) := by
    rw [h1]
    exact getTable_create_portfolio_summary_ps env.today _ lA t0 hlA hAps
  have h2 := load_data_ok env data (load_data env data s).2 hok
  have hs1loans : (Store.getTable (load_data env data s).2 "loans").isSome := by
    rw [h1]
    show (Store.getTable (create_portfolio_summary env.today (applyWrites data s)) "loans").isSome
    rw [getTable_create_portfolio_summary_ne env.today _ _ (by decide)]
    exact hAl
  have hA2ps : Store.getTable (applyWrites data (load_data env data s).2)
      "portfolio_summary" = some (t0 ++ [summaryRow env.today lA]) := by
    rw [getTable_applyWrites, hLW, option_none_or]
    exact h1ps
  have hA2l : (Store.getTable (applyWrites data (load_data env data s).2) "loans").isSome := by
    rw [getTable_applyWrites]
    cases hlw : lastWrite "loans" data with
    | none => rw [option_none_or]; exact hs1loans
    | some t => rfl
  obtain ⟨lA2, hlA2⟩ := Option.isSome_iff_exists.mp hA2l
  have h2ps : Store.getTable (load_data env data (load_data env data s).2).2
      "portfolio_summary" =
      some ((t0 ++ [summaryRow env.today lA]) ++ [summaryRow env.today lA2]) := by
    rw [h2]
    exact getTable_create_portfolio_summary_ps env.today _ lA2 _ hlA2 hA2ps
  refine ⟨by rw [h1], by rw [h2], ?_,
    t0, t0 ++ [summaryRow env.today lA],
    (t0 ++ [summaryRow env.today lA]) ++ [summaryRow env.today lA2],
    ht0, h1ps, h2ps, by simp, by simp⟩
  intro n hn
  rw [h2]
  show Store.getTable
      (create_portfolio_summary env.today (applyWrites data (load_data env data s).2)) n =
    Store.getTable (load_data env data s).2 n
  rw [getTable_create_portfolio_summary_ne env.today _ n hn, getTable_applyWrites, h1]
  show Option.or (lastWrite n data)
      (Store.getTable (create_portfolio_summary env.today (applyWrites data s)) n) =
    Store.getTable (create_portfolio_summary env.today (applyWrites data s)) n
  rw [getTable_create_portfolio_summary_ne env.today _ n hn, getTable_applyWrites,
    ← option_or_assoc, option_or_self]

/-- witness for C9: two runs of the Loader over a fresh store with one
non-empty loans table; the loans table is identical after both runs and
portfolio_summary has one row after the first run and two after the
second. -/
theorem load_data_idempotent_modulo_summary_witness :
    (load_data envOk dataL st0).1 = none ∧
    (load_data envOk dataL (load_data envOk dataL st0).2).1 = none ∧
    Store.getTable (load_data envOk dataL (load_data envOk dataL st0).2).2 "loans" =
      Store.getTable (load_data envOk dataL st0).2 "loans" ∧
    (Store.getTable (load_data envOk dataL st0).2 "portfolio_summary").map
      List.length = some 1 ∧
    (Store.getTable (load_data envOk dataL (load_data envOk dataL st0).2).2
      "portfolio_summary").map List.length = some 2 := by
  have h := load_data_idempotent_modulo_summary envOk dataL st0
    (by decide) (by decide) (by decide) (by decide)
  exact ⟨h.1, h.2.1, h.2.2.1 "loans" (by decide), by decide, by decide⟩

/-- C10 (amended): for any table name other than portfolio_summary whose
transformed table is empty or absent from the set, load_data leaves the
stored table of that name completely unchanged (rows loaded by a previous
run remain visible); portfolio_summary itself is the exception, since the
summary step appends one row to it even though it is never part of the
transformed set. -/
theorem load_data_untouched (env : LoadEnv) (data : List (String × Table))
    (s : Store) (n : String) (hn : n ≠ "portfolio_summary")
    (hempty : ∀ t : Table, (n, t) ∈ data → t.isEmpty = true) :
    Store.getTable (load_data env data s).2 n = Store.getTable s n := by
  have hLW : lastWrite n data = none := lastWrite_eq_none n data hempty
  rcases load_data_shape env data s with h | ⟨pre, name, df, post, hdata, h⟩
  · rw [h]
    show Store.getTable
        (create_portfolio_summary env.today (applyWrites data s)) n =
      Store.getTable s n
    rw [getTable_create_portfolio_summary_ne env.today _ n hn, getTable_applyWrites,
      hLW, option_none_or]
  · have hpreLW : lastWrite n pre = none := by
      apply lastWrite_eq_none
      intro t ht
      exact hempty t (by rw [hdata]; exact List.mem_append_left _ ht)
    rw [h]
    show Store.getTable (applyWrites pre s) n = Store.getTable s n
    rw [getTable_applyWrites, hpreLW, option_none_or]

/-- counterexample to C10 as stated: with an empty transformed set (every
table absent), the stored portfolio_summary table still changes, because
the summary step appends a row to it. -/
theorem load_data_untouched_counterexample :
    Store.getTable (load_data envOk ([] : List (String × Table)) st0).2
      "portfolio_summary" ≠ Store.getTable st0 "portfolio_summary" := by
  decide

/-- witness for C10: a run whose set has no customers entry leaves the
stored customers table unchanged. -/
theorem load_data_untouched_witness :
    Store.getTable (load_data envOk dataL st0).2 "customers" =
      Store.getTable st0 "customers" := by
  refine load_data_untouched envOk dataL st0 "customers" (by decide) ?_
  intro t ht
  simp only [dataL, List.mem_singleton] at ht
  have hname : "customers" = "loans" := congrArg Prod.fst ht
  exact absurd hname (by decide)

end SimpleETL
